import Mathlib

/-!
Verification of the mpesa-ke client library core: a shallow embedding of
the credential-and-request lifecycle manager (token cache, dispatcher
retry/backoff, formatter/signer utilities, callback normalizer) from
`src/mpesa.ts`, `src/express.ts`, `src/utils.ts` and `src/errors.ts`,
together with theorems about the embedded definitions.

Conventions of the embedding:
- JavaScript strings are Lean `String`s; character-level work uses
  `List Char` via `String.toList` (in Lean a `String` is exactly a packed
  `List Char`).
- JavaScript numbers that the code treats as integers are `Int` (or `Nat`
  where the source value is a count that cannot be negative).
- `fetch` responses are records carrying the fields the code reads; the
  WHATWG `Response.ok` predicate is `200 <= status <= 299`.
- Fallible operations return `Except MpesaErr _`; `MpesaErr` mirrors the
  class hierarchy of `src/errors.ts` plus the plain built-in `Error`.
- JavaScript truthiness of an optional string (`undefined`/`null`/`""` are
  falsy) is the `truthyStr` predicate below.
-/

deriving instance DecidableEq for Except

/-- Truthiness of a JavaScript string-or-undefined value: `undefined`,
`null` and the empty string are falsy, every other string is truthy. -/
def truthyStr : Option String → Bool
  | none => false
  | some s => s ≠ ""

/-- JavaScript `a || b` for a possibly-undefined string `a` with a string
fallback `b`: yields `b` exactly when `a` is absent or empty. -/
def jsOrStr (a : Option String) (b : String) : String :=
  match a with
  | some s => if s ≠ "" then s else b
  | none => b

/-- The ASCII-digit test used throughout: the character class `[0-9]`
(the complement of the `\D` class in `formatPhoneNumber`'s regex). -/
def isDig (c : Char) : Bool :=
  decide (48 ≤ c.toNat ∧ c.toNat ≤ 57)

/-- The decimal digit character for `n` (`0 ≤ n ≤ 9`). -/
def digitChar (n : Nat) : Char :=
  Char.ofNat (48 + n)

/-- Fuel-driven core of decimal printing of a natural number; `fuel` is
always at least the digit count at the call sites. -/
def decCharsAux : Nat → Nat → List Char
  | 0, _ => []
  | fuel + 1, n =>
    if n < 10 then [digitChar n]
    else decCharsAux fuel (n / 10) ++ [digitChar (n % 10)]

/-- Decimal representation of a natural number as a character list:
the embedding of JavaScript `String(n)` for a nonnegative integer `n`
(no leading zeros, plain base-10). -/
def decChars (n : Nat) : List Char :=
  decCharsAux (n + 1) n

/-- The embedding of JavaScript `String(n)` for an integer `n`. -/
def intChars (n : Int) : List Char :=
  if n < 0 then '-' :: decChars n.natAbs else decChars n.natAbs

/-- Numeric value of a list of decimal digit characters (most significant
first), the value `parseInt` assigns to a digit string. -/
def digitsVal (l : List Char) : Nat :=
  l.foldl (fun acc c => 10 * acc + (c.toNat - 48)) 0

/-- The embedding of JavaScript `parseInt(s)` restricted to the inputs the
library feeds it (substrings of digit strings): the value of the longest
leading run of decimal digits, `none` when there is no leading digit
(JavaScript `NaN`). -/
def jsParseInt (l : List Char) : Option Int :=
  let ds := l.takeWhile isDig
  if ds.isEmpty then none else some ((digitsVal ds : Int))

/-- A JavaScript value appearing as a callback metadata `Value`: the
gateway sends either a JSON string or a JSON number (integral). -/
inductive JsVal where
  | str (s : String)
  | num (n : Int)
  deriving DecidableEq

/-- The embedding of JavaScript `String(v)` on a metadata value. -/
def jsToString : JsVal → String
  | .str s => s
  | .num n => String.mk (intChars n)

/-- A JavaScript number that may be `NaN`: the result of `Number(v)`. -/
inductive JsNumber where
  | nan
  | int (n : Int)
  deriving DecidableEq

/-- The embedding of JavaScript `Number(v)` on a metadata value: a number
is itself, a string is parsed as a decimal integer and yields `NaN` when
it is not one. -/
def jsNumber : JsVal → JsNumber
  | .num n => .int n
  | .str s =>
    match s.toInt? with
    | some n => .int n
    | none => .nan

/-- The parsed JSON body of a non-auth API response, reduced to the fields
`apiRequest` reads (`errorMessage`, `ResultDesc`, `errorCode`); `rest`
stands for the remainder of the payload, which is passed through opaquely. -/
structure ApiData where
  errorMessage : Option String
  resultDesc : Option String
  errorCode : Option String
  rest : String
  deriving DecidableEq

/-- The error taxonomy of `src/errors.ts` (`MpesaValidationError`,
`MpesaAuthError`, `MpesaApiError`), together with the plain built-in
JavaScript `Error`, which is what some utilities throw.
`authError` carries the HTTP status and the raw text body;
`apiError` carries the HTTP status, the parsed JSON body and the
gateway-supplied `errorCode`; absent (`undefined`) fields are `none`. -/
inductive MpesaErr where
  | plainError (message : String)
  | validationError (message : String) (field : Option String)
  | authError (message : String) (statusCode : Option Nat) (response : String)
  | apiError (message : String) (statusCode : Option Nat) (response : Option ApiData)
      (errorCode : Option String)
  deriving DecidableEq

/-- Whether a computation failed with the library's `MpesaValidationError`
(as opposed to succeeding or failing with some other error class). -/
def isValidationFailure {α : Type} : Except MpesaErr α → Bool
  | .error (.validationError _ _) => true
  | _ => false

/-! ## Formatter/Signer: `formatPhoneNumber` (`src/utils.ts`) -/

/-- The Kenyan country code `"254"` as a character list. -/
def countryCode : List Char := ['2', '5', '4']

/-- `phone.replace(/\D/g, '')`: strip every non-digit character. -/
def cleanDigits (l : List Char) : List Char :=
  l.filter isDig

/-- The trunk-code normalization step of `formatPhoneNumber`:
a leading `0` is replaced by `254`; otherwise `254` is prepended unless
the string already starts with `254`. -/
def normalizeDigits (cleaned : List Char) : List Char :=
  if cleaned.take 1 = ['0'] then countryCode ++ cleaned.drop 1
  else if cleaned.take 3 = countryCode then cleaned
  else countryCode ++ cleaned

/-- The error thrown by `formatPhoneNumber` on a wrong-length result: a
plain `Error` whose message carries the original input, the digit count
observed after formatting, and the formatted digits. -/
def phoneError (phone : String) (cleaned : List Char) : MpesaErr :=
  .plainError ("Invalid phone number \"" ++ phone ++
    "\": expected 12 digits after formatting, got " ++
    toString cleaned.length ++ " (" ++ String.mk cleaned ++ ")")

/-- `formatPhoneNumber` from `src/utils.ts`: strip non-digits, normalize
the trunk/country prefix to `254`, and require exactly 12 digits. -/
def formatPhoneNumber (phone : String) : Except MpesaErr String :=
  let cleaned := normalizeDigits (cleanDigits phone.toList)
  if cleaned.length ≠ 12 then .error (phoneError phone cleaned)
  else .ok (String.mk cleaned)

/-! ## Formatter/Signer: `generateTimestamp` and `parseSafaricomDate`
(`src/utils.ts`)

A JavaScript `Date` constructed with explicit local components is embedded
as the record of the values its component getters return.  The
`new Date(y, m, d, h, mi, s)` constructor first applies the legacy
two-digit-year rule (`0 ≤ y ≤ 99` means `1900 + y`), then rolls every
out-of-range component into the next larger unit exactly as local-time
calendar arithmetic does (floor division throughout). -/

/-- A JavaScript `Date`, represented by the values of `getFullYear`,
`getMonth` (0-based), `getDate`, `getHours`, `getMinutes`, `getSeconds`. -/
structure JsDateTime where
  year : Int
  month : Int
  day : Int
  hour : Int
  minute : Int
  second : Int
  deriving DecidableEq

/-- Gregorian leap-year test. -/
def isLeapYear (y : Int) : Bool :=
  (y % 4 = 0 ∧ y % 100 ≠ 0) ∨ y % 400 = 0

/-- Days in month `m` (0-based) of year `y`. -/
def daysInMonth (y m : Int) : Int :=
  if m = 1 then (if isLeapYear y then 29 else 28)
  else if m = 3 ∨ m = 5 ∨ m = 8 ∨ m = 10 then 30
  else 31

/-- Roll an out-of-range day-of-month into adjacent months (the day-level
normalization a `Date` constructor performs); `fuel` bounds the number of
month steps and is ample for every value this development constructs. -/
def carryDay : Nat → Int → Int → Int → Int × Int × Int
  | 0, y, m, d => (y, m, d)
  | fuel + 1, y, m, d =>
    if d < 1 then
      let m' := if m = 0 then 11 else m - 1
      let y' := if m = 0 then y - 1 else y
      carryDay fuel y' m' (d + daysInMonth y' m')
    else if d > daysInMonth y m then
      let m' := if m = 11 then 0 else m + 1
      let y' := if m = 11 then y + 1 else y
      carryDay fuel y' m' (d - daysInMonth y m)
    else (y, m, d)

/-- The embedding of `new Date(y, m0, d, h, mi, s)` with local-time
components: the two-digit-year rule, then carrying seconds into minutes,
minutes into hours, hours into days, months into years (floor division,
which for the positive divisors here is Euclidean division), and finally
days across month boundaries. -/
def newJsDate (y m0 d h mi s : Int) : JsDateTime :=
  let y0 := if 0 ≤ y ∧ y ≤ 99 then 1900 + y else y
  let mi1 := mi + s.ediv 60
  let s1 := s.emod 60
  let h1 := h + mi1.ediv 60
  let mi2 := mi1.emod 60
  let dExtra := h1.ediv 24
  let h2 := h1.emod 24
  let y1 := y0 + m0.ediv 12
  let m1 := m0.emod 12
  let ymd := carryDay 1000 y1 m1 (d + dExtra)
  ⟨ymd.1, ymd.2.1, ymd.2.2, h2, mi2, s1⟩

/-- `parseSafaricomDate` from `src/utils.ts`: stringify the value, cut the
fixed-width fields `YYYY MM DD HH MM SS` with `substring`, `parseInt`
each, and hand them to the `Date` constructor (month made 0-based).
`none` is the `Invalid Date` produced when a field has no leading digit
(`parseInt` returns `NaN`). -/
def parseSafaricomDate (dateValue : JsVal) : Option JsDateTime :=
  let l := (jsToString dateValue).toList
  match jsParseInt (l.take 4), jsParseInt ((l.drop 4).take 2),
      jsParseInt ((l.drop 6).take 2), jsParseInt ((l.drop 8).take 2),
      jsParseInt ((l.drop 10).take 2), jsParseInt ((l.drop 12).take 2) with
  | some y, some mo, some d, some h, some mi, some se =>
    some (newJsDate y (mo - 1) d h mi se)
  | _, _, _, _, _, _ => none

/-- JavaScript `String(n).padStart(2, '0')`: prepend zeros up to width 2. -/
def padStart2 (l : List Char) : List Char :=
  if l.length < 2 then List.replicate (2 - l.length) '0' ++ l else l

/-- Two-digit zero-padded decimal rendering of an integer. -/
def pad2 (n : Int) : List Char :=
  padStart2 (intChars n)

/-- `generateTimestamp` from `src/utils.ts`: `YYYYMMDDHHMMSS` from the
local components of a `Date`; every component except the year is padded
to two digits, the year is rendered as-is. -/
def generateTimestamp (date : JsDateTime) : String :=
  String.mk (intChars date.year ++ pad2 (date.month + 1) ++ pad2 date.day ++
    pad2 date.hour ++ pad2 date.minute ++ pad2 date.second)

/-! ## Callback Normalizer: `parseStkCallback` (`src/express.ts`) -/

/-- One `{Name, Value}` entry of `CallbackMetadata.Item`. -/
structure StkItem where
  name : String
  value : JsVal
  deriving DecidableEq

/-- The inbound STK callback payload `body.Body.stkCallback`:
`callbackMetadata` is `none` when the gateway omits `CallbackMetadata`
(failed payments), otherwise the `Item` list. -/
structure StkCallbackBody where
  merchantRequestID : String
  checkoutRequestID : String
  resultCode : Int
  resultDesc : String
  callbackMetadata : Option (List StkItem)
  deriving DecidableEq

/-- The flat result record `StkCallbackResult`; `none` is JavaScript
`null`.  `transactionDate` is doubly optional: the outer layer is
null-vs-assigned, the inner layer is the `Invalid Date` case of
`parseSafaricomDate`. -/
structure StkCallbackResult where
  success : Bool
  resultCode : Int
  resultDesc : String
  merchantRequestId : String
  checkoutRequestId : String
  mpesaReceiptNumber : Option String
  transactionDate : Option (Option JsDateTime)
  phoneNumber : Option String
  amount : Option JsNumber
  deriving DecidableEq

/-- One iteration of the metadata loop of `parseStkCallback`: the
`switch (item.Name)` assigning the matching optional field. -/
def applyItem (r : StkCallbackResult) (item : StkItem) : StkCallbackResult :=
  if item.name = "MpesaReceiptNumber" then
    { r with mpesaReceiptNumber := some (jsToString item.value) }
  else if item.name = "TransactionDate" then
    { r with transactionDate := some (parseSafaricomDate item.value) }
  else if item.name = "PhoneNumber" then
    { r with phoneNumber := some (jsToString item.value) }
  else if item.name = "Amount" then
    { r with amount := some (jsNumber item.value) }
  else r

/-- `parseStkCallback` from `src/express.ts`: build the flat record with
every optional field `null`, then, only when `ResultCode === 0` and
`CallbackMetadata` is present, fill the optional fields from the items. -/
def parseStkCallback (b : StkCallbackBody) : StkCallbackResult :=
  let base : StkCallbackResult :=
    { success := b.resultCode == 0
      resultCode := b.resultCode
      resultDesc := b.resultDesc
      merchantRequestId := b.merchantRequestID
      checkoutRequestId := b.checkoutRequestID
      mpesaReceiptNumber := none
      transactionDate := none
      phoneNumber := none
      amount := none }
  if b.resultCode = 0 then
    match b.callbackMetadata with
    | some items => items.foldl applyItem base
    | none => base
  else base

/-! ## Boundary handler: `createStkCallbackHandler` (`src/express.ts`)

User-supplied callbacks are embedded as functions into `Except String`:
`.error e` is the callback throwing `e`.  The request body is `none` when
it does not have the `Body.stkCallback` shape (reading it throws a
`TypeError`).  The handler's own result is `Except String SentResponse`:
`.ok` carries the response written with `res.json(...)` (Express sends
status 200 when no status was set), `.error` is the handler itself
rejecting, which only happens when the user's `onError` throws. -/

/-- The HTTP response written by a handler: the status code and the
`{ResultCode, ResultDesc}` body. -/
structure SentResponse where
  statusCode : Nat
  resultCode : Int
  resultDesc : String
  deriving DecidableEq

/-- The fixed acknowledgment Safaricom expects, sent with the default
success status. -/
def ackResponse : SentResponse := ⟨200, 0, "Accepted"⟩

/-- The options record of `createStkCallbackHandler`. -/
structure StkHandlerOptions where
  onResult : StkCallbackResult → Except String Unit
  onError : Option (String → Except String Unit)

/-- `createStkCallbackHandler` from `src/express.ts`, applied to one
request: try to parse the body and run `onResult`, answering with the
fixed acknowledgment; on any throw, run `onError` when provided and still
answer with the fixed acknowledgment. -/
def createStkCallbackHandler (options : StkHandlerOptions)
    (reqBody : Option StkCallbackBody) : Except String SentResponse :=
  let tryBlock : Except String SentResponse :=
    match reqBody with
    | none => .error "TypeError: Cannot read properties of undefined"
    | some b =>
      match options.onResult (parseStkCallback b) with
      | .ok _ => .ok ackResponse
      | .error e => .error e
  match tryBlock with
  | .ok resp => .ok resp
  | .error e =>
    match options.onError with
    | none => .ok ackResponse
    | some handler =>
      match handler e with
      | .ok _ => .ok ackResponse
      | .error e' => .error e'

/-! ## Token Cache: `getAccessToken` (`src/mpesa.ts`)

The mutable fields `accessToken`/`tokenExpiry` of the `Mpesa` instance are
the `TokenCache` record (initially `⟨none, 0⟩`).  A call is embedded as a
function of the cache, the two `Date.now()` readings the method can make
(`now` at the cache check, `nowAfter` when the expiry is assigned — an
`await` separates them), and the auth endpoint's response.  The result
records the returned-or-thrown value, the cache afterwards, and how many
credential exchanges the call performed. -/

/-- The token cache fields of the `Mpesa` instance. -/
structure TokenCache where
  accessToken : Option String
  tokenExpiry : Int
  deriving DecidableEq

/-- The auth endpoint's response, reduced to what `getAccessToken` reads:
the status line, the raw text body (`none` when `response.text()` itself
rejects, in which case `''` is used), and on success the parsed
`access_token` and the integer value `parseInt` gives the decimal-string
`expires_in` field. -/
structure AuthHttpResp where
  status : Nat
  statusText : String
  textBody : Option String
  accessTokenVal : String
  expiresIn : Int
  deriving DecidableEq

/-- WHATWG `Response.ok`: status in the inclusive range 200–299. -/
def respOk (status : Nat) : Bool :=
  decide (200 ≤ status ∧ status ≤ 299)

/-- The outcome of one `getAccessToken` call. -/
structure TokenCallResult where
  result : Except MpesaErr String
  cache : TokenCache
  exchanges : Nat
  deriving DecidableEq

/-- The `AuthError` message `getAccessToken` builds on a non-2xx exchange. -/
def authFailMsg (r : AuthHttpResp) : String :=
  s!"Authentication failed: {r.status} {r.statusText}"

/-- `getAccessToken` from `src/mpesa.ts`: return the cached token when it
is truthy and unexpired; otherwise perform one credential exchange — a
non-2xx response throws `MpesaAuthError` with the status and raw body and
leaves the cache untouched, a 2xx response caches the token with expiry
`now + expires_in·1000 − 60000` and returns it. -/
def getAccessToken (c : TokenCache) (now nowAfter : Int) (resp : AuthHttpResp) :
    TokenCallResult :=
  if truthyStr c.accessToken ∧ now < c.tokenExpiry then
    ⟨.ok (c.accessToken.getD ""), c, 0⟩
  else if respOk resp.status = false then
    ⟨.error (.authError (authFailMsg resp) (some resp.status) (resp.textBody.getD "")),
      c, 1⟩
  else
    ⟨.ok resp.accessTokenVal,
      ⟨some resp.accessTokenVal, nowAfter + resp.expiresIn * 1000 - 60000⟩, 1⟩

/-! ## Security credential (`src/mpesa.ts` and `src/utils.ts`)

`generateSecurityCredential` performs RSA-PKCS#1-v1.5 encryption of the
initiator password with a certificate read from disk (or the built-in
sandbox certificate).  Following §9 of the design notes, the two ambient
capabilities — the filesystem read and the encryption primitive — are
injected as function parameters; the certificate constant is abstracted
as the distinguished string below. -/

/-- Stands for the `SANDBOX_CERTIFICATE` PEM constant of `src/utils.ts`. -/
def sandboxCertificate : String := "SANDBOX_CERTIFICATE_PEM"

/-- The configuration record (`MpesaConfig`), reduced to the fields the
modeled core reads. -/
structure MpesaConfig where
  consumerKey : String
  consumerSecret : String
  businessShortCode : String
  passKey : String
  callbackUrl : String
  initiatorPassword : Option String
  certificatePath : Option String
  deriving DecidableEq

/-- `generateSecurityCredential` from `src/utils.ts`: read the certificate
at `certificatePath` when that is truthy, else use the built-in sandbox
certificate, and return the base64 RSA-PKCS#1-v1.5 encryption of the
password — `encrypt` and `readFile` are the injected crypto/filesystem
capabilities. -/
def generateSecurityCredential (encrypt : String → String → String)
    (readFile : String → String) (password : String)
    (certificatePath : Option String) : String :=
  let certificate :=
    if truthyStr certificatePath then readFile (certificatePath.getD "")
    else sandboxCertificate
  encrypt certificate password

/-- `getSecurityCredential` from `src/mpesa.ts`: a truthy request-level
credential wins; else a truthy `config.initiatorPassword` is encrypted;
else fall back to the plain `businessShortCode`. -/
def getSecurityCredential (encrypt : String → String → String)
    (readFile : String → String) (config : MpesaConfig)
    (requestCredential : Option String) : String :=
  if truthyStr requestCredential then requestCredential.getD ""
  else if truthyStr config.initiatorPassword then
    generateSecurityCredential encrypt readFile (config.initiatorPassword.getD "")
      config.certificatePath
  else config.businessShortCode

/-! ## Dispatcher: `apiRequest` / `fetchWithTimeout` (`src/mpesa.ts`)

The retry loop is embedded over a trace of per-attempt outcomes.  Each
attempt either yields an HTTP response (`httpResp`), or fails locally:
`aborted` is the `AbortError` path of `fetchWithTimeout` (the hard
timeout), which is converted into an `MpesaApiError` with no status code,
and `localError` is any other local throw, rethrown as-is (a plain
`Error`).  The URL, headers and serialized body do not influence the
control flow and are not modeled; the debug log is purely observational
and dropped.  The loop result records the value returned or thrown, how
many fetches were performed, and the backoff delays awaited, in order. -/

/-- A non-auth API response, reduced to what `apiRequest` reads: the
status line and the parsed JSON body (already `{}`-defaulted by
`response.json().catch(() => ({}))`). -/
structure ApiResponse where
  status : Nat
  statusText : String
  data : ApiData
  deriving DecidableEq

/-- The outcome of one `fetchWithTimeout` call inside the retry loop. -/
inductive AttemptOutcome where
  | httpResp (r : ApiResponse)
  | aborted
  | localError (msg : String)
  deriving DecidableEq

/-- The `MpesaApiError` built for a non-ok HTTP response: the message is
`errorMessage || ResultDesc || "API request failed: <status> <statusText>"`
and it carries the status, the parsed body and the gateway `errorCode`. -/
def httpFailErr (r : ApiResponse) : MpesaErr :=
  .apiError
    (jsOrStr r.data.errorMessage
      (jsOrStr r.data.resultDesc s!"API request failed: {r.status} {r.statusText}"))
    (some r.status) (some r.data) r.data.errorCode

/-- The `MpesaApiError` thrown by `fetchWithTimeout` on an abort: only a
message, no status code, body or error code. -/
def timeoutErr (timeoutMs : Nat) : MpesaErr :=
  .apiError s!"Request timed out after {timeoutMs}ms" none none none

/-- The backoff waited before retry attempt `a ≥ 1`:
`min(1000 · 2^(a−1), 10000)` milliseconds. -/
def retryDelay (a : Nat) : Nat :=
  min (1000 * 2 ^ (a - 1)) 10000

/-- The outcome of a whole `apiRequest` call. -/
structure DispatchResult where
  result : Except MpesaErr ApiData
  fetchCount : Nat
  delays : List Nat
  deriving DecidableEq

/-- The `for (let attempt = 0; attempt <= maxRetries; attempt++)` loop of
`apiRequest`, one constructor case per remaining permitted attempt.
Attempt `a` first awaits `retryDelay a` when `a > 0`, then fetches:

* ok response — return the parsed body;
* non-ok response — build the `MpesaApiError`; a 5xx with budget left
  retries (the `continue`), otherwise the error is thrown and the `catch`
  rethrows it when its status is truthy and `< 500`, retries when the
  status is falsy (0) with budget left, and otherwise throws the last
  error, which is this same error;
* abort — the timeout `MpesaApiError` has no status code, so the `catch`
  retries with budget left, else throws it;
* other local error — same, as a plain `Error`.

The fuel-0 case is the `throw lastError || new MpesaApiError(...)` line
after the loop, unreachable when the loop is entered with its full
budget. -/
def apiRequestLoop (maxRetries timeoutMs : Nat) (outcomes : Nat → AttemptOutcome) :
    Nat → Nat → Option MpesaErr → DispatchResult
  | 0, _, lastErr =>
    ⟨.error (lastErr.getD (.apiError "Request failed after all retries" none none none)),
      0, []⟩
  | fuel + 1, a, _ =>
    let preDelays : List Nat := if 0 < a then [retryDelay a] else []
    match outcomes a with
    | .httpResp r =>
      if respOk r.status then ⟨.ok r.data, 1, preDelays⟩
      else
        let e := httpFailErr r
        if 500 ≤ r.status ∧ a < maxRetries then
          let rest := apiRequestLoop maxRetries timeoutMs outcomes fuel (a + 1) (some e)
          ⟨rest.result, rest.fetchCount + 1, preDelays ++ rest.delays⟩
        else if r.status ≠ 0 ∧ r.status < 500 then ⟨.error e, 1, preDelays⟩
        else if a < maxRetries then
          let rest := apiRequestLoop maxRetries timeoutMs outcomes fuel (a + 1) (some e)
          ⟨rest.result, rest.fetchCount + 1, preDelays ++ rest.delays⟩
        else ⟨.error e, 1, preDelays⟩
    | .aborted =>
      let e := timeoutErr timeoutMs
      if a < maxRetries then
        let rest := apiRequestLoop maxRetries timeoutMs outcomes fuel (a + 1) (some e)
        ⟨rest.result, rest.fetchCount + 1, preDelays ++ rest.delays⟩
      else ⟨.error e, 1, preDelays⟩
    | .localError msg =>
      let e := MpesaErr.plainError msg
      if a < maxRetries then
        let rest := apiRequestLoop maxRetries timeoutMs outcomes fuel (a + 1) (some e)
        ⟨rest.result, rest.fetchCount + 1, preDelays ++ rest.delays⟩
      else ⟨.error e, 1, preDelays⟩

/-- `apiRequest` from `src/mpesa.ts`: run the retry loop from attempt 0
with its full budget of `maxRetries + 1` attempts and no last error. -/
def apiRequest (maxRetries timeoutMs : Nat) (outcomes : Nat → AttemptOutcome) :
    DispatchResult :=
  apiRequestLoop maxRetries timeoutMs outcomes (maxRetries + 1) 0 none

/-- The error value attempt `a` contributes when it does not succeed:
the `MpesaApiError` built from the response, the timeout error, or the
plain local error. -/
def attemptErr (timeoutMs : Nat) : AttemptOutcome → MpesaErr
  | .httpResp r => httpFailErr r
  | .aborted => timeoutErr timeoutMs
  | .localError msg => .plainError msg

/-- Whether an attempt outcome makes `apiRequest` retry when budget
remains: a server-error (or status-0) response, an abort, or any other
local error. -/
def retryable : AttemptOutcome → Prop
  | .httpResp r => 500 ≤ r.status ∨ r.status = 0
  | .aborted => True
  | .localError _ => True

/-- The backoff delays awaited over `fuel` consecutive attempts starting
at attempt index `a` (attempt 0 waits nothing). -/
def expectedDelays : Nat → Nat → List Nat
  | _, 0 => []
  | a, fuel + 1 => (if 0 < a then [retryDelay a] else []) ++ expectedDelays (a + 1) fuel

/-! # Theorems -/

/-! ## C10: security credential selection -/

/-- C10: for the initiator-credential operations, `getSecurityCredential`
returns the request-level credential when one is supplied; otherwise,
when `config.initiatorPassword` is set, the RSA-encrypted credential; and
otherwise the plain `businessShortCode` string.  (Every initiator
operation — B2C, B2B, balance, status, reversal, tax remittance — sets
its `SecurityCredential` field to exactly this call's value.) -/
theorem getSecurityCredential_c10 (encrypt : String → String → String)
    (readFile : String → String) (config : MpesaConfig) (rc : Option String) :
    (∀ s, rc = some s → s ≠ "" →
      getSecurityCredential encrypt readFile config rc = s)
    ∧ (truthyStr rc = false → truthyStr config.initiatorPassword = true →
      getSecurityCredential encrypt readFile config rc =
        generateSecurityCredential encrypt readFile
          (config.initiatorPassword.getD "") config.certificatePath)
    ∧ (truthyStr rc = false → truthyStr config.initiatorPassword = false →
      getSecurityCredential encrypt readFile config rc = config.businessShortCode) := by
  refine ⟨?_, ?_, ?_⟩
  · rintro s rfl hne
    simp [getSecurityCredential, truthyStr, hne]
  · intro h1 h2
    simp [getSecurityCredential, h1, h2]
  · intro h1 h2
    simp [getSecurityCredential, h1, h2]

/-- Witness for C10 at concrete inputs: all three branches. -/
theorem getSecurityCredential_c10_witness :
    getSecurityCredential (fun c p => c ++ "." ++ p) (fun p => "CERT." ++ p)
      ⟨"k", "sec", "174379", "pk", "cb", some "pw", none⟩ (some "RC") = "RC"
    ∧ getSecurityCredential (fun c p => c ++ "." ++ p) (fun p => "CERT." ++ p)
      ⟨"k", "sec", "174379", "pk", "cb", some "pw", none⟩ none =
      generateSecurityCredential (fun c p => c ++ "." ++ p) (fun p => "CERT." ++ p)
        "pw" none
    ∧ getSecurityCredential (fun c p => c ++ "." ++ p) (fun p => "CERT." ++ p)
      ⟨"k", "sec", "174379", "pk", "cb", none, none⟩ none = "174379" := by
  refine ⟨?_, ?_, ?_⟩
  · exact (getSecurityCredential_c10 _ _ _ _).1 "RC" rfl (by decide)
  · exact (getSecurityCredential_c10 _ _ _ _).2.1 (by decide) (by decide)
  · exact (getSecurityCredential_c10 _ _ _ _).2.2 (by decide) (by decide)

/-! ## C8: the webhook handler always acknowledges -/

/-- C8: for every inbound webhook request, the handler produced by
`createStkCallbackHandler` responds with exactly
`{ResultCode: 0, ResultDesc: "Accepted"}` and HTTP 200, whether parsing
succeeds or throws and whether `onResult` succeeds or throws (the
user-supplied `onError`, when present, is assumed not to throw itself,
which is outside the claim). -/
theorem createStkCallbackHandler_c8 (options : StkHandlerOptions)
    (reqBody : Option StkCallbackBody)
    (honerr : ∀ f e, options.onError = some f → f e = .ok ()) :
    createStkCallbackHandler options reqBody = .ok ⟨200, 0, "Accepted"⟩ := by
  have hack : ackResponse = ⟨200, 0, "Accepted"⟩ := rfl
  unfold createStkCallbackHandler
  cases reqBody with
  | none =>
    cases ho : options.onError with
    | none => simp [hack]
    | some f => simp [honerr f _ ho, hack]
  | some b =>
    cases hr : options.onResult (parseStkCallback b) with
    | ok u => simp [hr, hack]
    | error e =>
      cases ho : options.onError with
      | none => simp [hr, hack]
      | some f => simp [hr, honerr f e ho, hack]

/-- Witness for C8: a handler whose parse fails (malformed body) and a
handler whose `onResult` throws both still acknowledge. -/
theorem createStkCallbackHandler_c8_witness :
    createStkCallbackHandler
      ⟨fun _ => .error "boom", some (fun _ => .ok ())⟩ none =
      .ok ⟨200, 0, "Accepted"⟩
    ∧ createStkCallbackHandler ⟨fun _ => .error "boom", none⟩
      (some ⟨"m", "c", 0, "ok", none⟩) = .ok ⟨200, 0, "Accepted"⟩ := by
  constructor
  · exact createStkCallbackHandler_c8 _ none
      (fun f e h => (Option.some.inj h) ▸ rfl)
  · exact createStkCallbackHandler_c8 _ _ (fun f e h => by cases h)

/-! ## C6: failed token exchange -/

/-- C6: for every non-2xx response to the credential exchange (reached
because the cache was not valid), `getAccessToken` throws `MpesaAuthError`
carrying the HTTP status and raw body, leaves both token cache fields
unchanged, and performs exactly one exchange (no retry inside the cache). -/
theorem getAccessToken_c6 (c : TokenCache) (now nowAfter : Int)
    (resp : AuthHttpResp)
    (hmiss : ¬(truthyStr c.accessToken = true ∧ now < c.tokenExpiry))
    (hbad : respOk resp.status = false) :
    getAccessToken c now nowAfter resp =
      ⟨.error (.authError (authFailMsg resp) (some resp.status)
        (resp.textBody.getD "")), c, 1⟩ := by
  simp only [getAccessToken]
  rw [if_neg, if_pos hbad]
  simpa using hmiss

/-- Witness for C6: a 401 exchange from the empty cache. -/
theorem getAccessToken_c6_witness :
    getAccessToken ⟨none, 0⟩ 5 6 ⟨401, "Unauthorized", some "Invalid credentials", "", 0⟩ =
      ⟨.error (.authError "Authentication failed: 401 Unauthorized" (some 401)
        "Invalid credentials"), ⟨none, 0⟩, 1⟩ := by
  have h := getAccessToken_c6 ⟨none, 0⟩ 5 6
    ⟨401, "Unauthorized", some "Invalid credentials", "", 0⟩ (by decide) (by decide)
  exact h.trans (by decide)

/-! ## C3: token cache behavior -/

/-- C3: a call with a truthy cached token and `now < expiry` returns the
cached token with no exchange; any other call performs exactly one
exchange and, on a 2xx response, sets the expiry to
`now + expires_in·1000 − 60000`; consequently two calls from the empty
cache, the second before the new expiry, perform one exchange in total. -/
theorem getAccessToken_c3 :
    (∀ (c : TokenCache) (now nowAfter : Int) (resp : AuthHttpResp),
      truthyStr c.accessToken = true → now < c.tokenExpiry →
      getAccessToken c now nowAfter resp = ⟨.ok (c.accessToken.getD ""), c, 0⟩)
    ∧ (∀ (c : TokenCache) (now nowAfter : Int) (resp : AuthHttpResp),
      ¬(truthyStr c.accessToken = true ∧ now < c.tokenExpiry) →
      (getAccessToken c now nowAfter resp).exchanges = 1
      ∧ (respOk resp.status = true →
        (getAccessToken c now nowAfter resp).cache =
          ⟨some resp.accessTokenVal, nowAfter + resp.expiresIn * 1000 - 60000⟩))
    ∧ (∀ (t1 t1' t2 t2' : Int) (r1 r2 : AuthHttpResp),
      respOk r1.status = true → r1.accessTokenVal ≠ "" →
      t2 < t1' + r1.expiresIn * 1000 - 60000 →
      (getAccessToken ⟨none, 0⟩ t1 t1' r1).exchanges = 1
      ∧ getAccessToken (getAccessToken ⟨none, 0⟩ t1 t1' r1).cache t2 t2' r2 =
        ⟨.ok r1.accessTokenVal, (getAccessToken ⟨none, 0⟩ t1 t1' r1).cache, 0⟩) := by
  refine ⟨?_, ?_, ?_⟩
  · intro c now nowAfter resp h1 h2
    simp [getAccessToken, h1, h2]
  · intro c now nowAfter resp hmiss
    constructor
    · simp only [getAccessToken]
      rw [if_neg (by simpa using hmiss)]
      by_cases hok : respOk resp.status = false
      · rw [if_pos hok]
      · rw [if_neg hok]
    · intro hok
      simp only [getAccessToken]
      rw [if_neg (by simpa using hmiss), if_neg (by simp [hok])]
  · intro t1 t1' t2 t2' r1 r2 hok htok ht2
    have hfirst : getAccessToken ⟨none, 0⟩ t1 t1' r1 =
        ⟨.ok r1.accessTokenVal, ⟨some r1.accessTokenVal,
          t1' + r1.expiresIn * 1000 - 60000⟩, 1⟩ := by
      simp only [getAccessToken]
      rw [if_neg (by simp [truthyStr]), if_neg (by simp [hok])]
    refine ⟨by rw [hfirst], ?_⟩
    rw [hfirst]
    simp [getAccessToken, truthyStr, htok, ht2]

/-- Witness for C3: one exchange, then a cache hit 100ms later. -/
theorem getAccessToken_c3_witness :
    (getAccessToken ⟨none, 0⟩ 0 0 ⟨200, "OK", none, "TOK", 3599⟩).exchanges = 1
    ∧ getAccessToken (getAccessToken ⟨none, 0⟩ 0 0 ⟨200, "OK", none, "TOK", 3599⟩).cache
      100 101 ⟨500, "X", none, "", 0⟩ =
      ⟨.ok "TOK", (getAccessToken ⟨none, 0⟩ 0 0 ⟨200, "OK", none, "TOK", 3599⟩).cache, 0⟩ :=
  getAccessToken_c3.2.2 0 0 100 101 ⟨200, "OK", none, "TOK", 3599⟩ ⟨500, "X", none, "", 0⟩
    (by decide) (by decide) (by decide)

/-! ## C4 and C5: phone-number normalization -/

theorem normalizeDigits_zeroHead (x : Char) (t : List Char) :
    normalizeDigits ('0' :: x :: t) = countryCode ++ x :: t := by
  have h1 : ('0' :: x :: t).take 1 = ['0'] := rfl
  rw [normalizeDigits, if_pos h1]
  rfl

theorem normalizeDigits_cc (d : List Char) :
    normalizeDigits (countryCode ++ d) = countryCode ++ d := by
  have h0 : (countryCode ++ d).take 1 = ['2'] := rfl
  have h1 : ¬(countryCode ++ d).take 1 = ['0'] := by
    rw [h0]
    intro hcon
    injection hcon with h2 _
    exact (by decide : ('2' : Char) ≠ '0') h2
  have h2 : (countryCode ++ d).take 3 = countryCode := rfl
  rw [normalizeDigits, if_neg h1, if_pos h2]

theorem normalizeDigits_bare (x : Char) (t : List Char) (hx0 : x ≠ '0')
    (hx2 : x ≠ '2') :
    normalizeDigits (x :: t) = countryCode ++ x :: t := by
  have h1 : ¬(x :: t).take 1 = ['0'] := by
    have e1 : (x :: t).take 1 = [x] := rfl
    rw [e1]
    intro hcon
    injection hcon with h2 _
    exact hx0 h2
  have h2 : ¬(x :: t).take 3 = countryCode := by
    intro hcon
    have hcon' : x :: t.take 2 = '2' :: '5' :: '4' :: [] := hcon
    injection hcon' with h3 _
    exact hx2 h3
  rw [normalizeDigits, if_neg h1, if_neg h2]

/-- C4 (counterexample to the claim as stated): `formatPhoneNumber`
applied to `"071234"` does fail, but the failure is a plain `Error`, not
the library's `MpesaValidationError`. -/
theorem formatPhoneNumber_c4_counterexample :
    (formatPhoneNumber "071234").isOk = false
    ∧ isValidationFailure (formatPhoneNumber "071234") = false := by
  refine ⟨by decide, by decide⟩

/-- C4 (amended): for every input whose digit count after cleaning and
country-code normalization is not 12, `formatPhoneNumber` fails — with a
plain `Error` (not `MpesaValidationError`) whose message describes the
original input and the observed digit count; in particular `"071234"`
and `""` both fail. -/
theorem formatPhoneNumber_c4_amended :
    (∀ phone : String, (normalizeDigits (cleanDigits phone.toList)).length ≠ 12 →
      formatPhoneNumber phone =
        .error (phoneError phone (normalizeDigits (cleanDigits phone.toList))))
    ∧ (formatPhoneNumber "071234").isOk = false
    ∧ (formatPhoneNumber "").isOk = false := by
  refine ⟨?_, by decide, by decide⟩
  intro phone h
  simp only [String.toList] at h
  simp [formatPhoneNumber, h]

/-- Witness for C4 (amended) at `"071234"`: 8 digits after formatting. -/
theorem formatPhoneNumber_c4_witness :
    formatPhoneNumber "071234" =
      .error (phoneError "071234" (normalizeDigits (cleanDigits "071234".toList))) :=
  formatPhoneNumber_c4_amended.1 "071234" (by decide)

/-- C5: every presentation of a valid Kenyan subscriber number `d`
(9 digits beginning with 7 or 1) — leading `0`, leading `+254`, bare
`254`, or bare subscriber number, with arbitrary non-digit separators
(anything whose digit content is one of those three digit strings) — is
normalized to the identical canonical 12-digit form `254‖d`. -/
theorem formatPhoneNumber_c5 (d : List Char) (s : String) (h9 : d.length = 9)
    (hstart : d.head? = some '7' ∨ d.head? = some '1')
    (hs : cleanDigits s.toList = '0' :: d
      ∨ cleanDigits s.toList = countryCode ++ d
      ∨ cleanDigits s.toList = d) :
    formatPhoneNumber s = .ok (String.mk (countryCode ++ d)) := by
  have hlen : (countryCode ++ d).length = 12 := by
    simp [countryCode, h9]
  have hnorm : normalizeDigits (cleanDigits s.toList) = countryCode ++ d := by
    rcases hs with h | h | h <;> rw [h]
    · cases d with
      | nil => simp at h9
      | cons x t => exact normalizeDigits_zeroHead x t
    · exact normalizeDigits_cc d
    · cases d with
      | nil => simp at h9
      | cons x t =>
        have hx : x = '7' ∨ x = '1' := by
          rcases hstart with hh | hh <;> simp at hh <;> [exact Or.inl hh; exact Or.inr hh]
        rcases hx with rfl | rfl
        · exact normalizeDigits_bare '7' t (by decide) (by decide)
        · exact normalizeDigits_bare '1' t (by decide) (by decide)
  simp only [String.toList] at hnorm
  simp [formatPhoneNumber, hnorm, hlen]

/-- Witness for C5: `"+254 712-345-678"` normalizes to `"254712345678"`. -/
theorem formatPhoneNumber_c5_witness :
    formatPhoneNumber "+254 712-345-678" = .ok (String.mk (countryCode ++ "712345678".toList)) :=
  formatPhoneNumber_c5 "712345678".toList "+254 712-345-678" (by decide)
    (Or.inl (by decide)) (Or.inr (Or.inl (by decide)))

/-! ## C7: callback normalization -/

theorem applyItem_fixed (r : StkCallbackResult) (it : StkItem) :
    (applyItem r it).success = r.success
    ∧ (applyItem r it).resultCode = r.resultCode
    ∧ (applyItem r it).resultDesc = r.resultDesc
    ∧ (applyItem r it).merchantRequestId = r.merchantRequestId
    ∧ (applyItem r it).checkoutRequestId = r.checkoutRequestId := by
  unfold applyItem
  split_ifs <;> simp

theorem applyItem_receipt (r : StkCallbackResult) (it : StkItem) :
    (applyItem r it).mpesaReceiptNumber.isSome =
      (r.mpesaReceiptNumber.isSome || (it.name == "MpesaReceiptNumber")) := by
  unfold applyItem
  split_ifs with h1 h2 h3 h4 <;> simp [*]

theorem applyItem_date (r : StkCallbackResult) (it : StkItem) :
    (applyItem r it).transactionDate.isSome =
      (r.transactionDate.isSome || (it.name == "TransactionDate")) := by
  unfold applyItem
  split_ifs with h1 h2 h3 h4 <;> simp [*]

theorem applyItem_phone (r : StkCallbackResult) (it : StkItem) :
    (applyItem r it).phoneNumber.isSome =
      (r.phoneNumber.isSome || (it.name == "PhoneNumber")) := by
  unfold applyItem
  split_ifs with h1 h2 h3 h4 <;> simp [*]

theorem applyItem_amount (r : StkCallbackResult) (it : StkItem) :
    (applyItem r it).amount.isSome =
      (r.amount.isSome || (it.name == "Amount")) := by
  unfold applyItem
  split_ifs with h1 h2 h3 h4 <;> simp [*]

theorem foldl_applyItem_fields (items : List StkItem) (r : StkCallbackResult) :
    (items.foldl applyItem r).success = r.success
    ∧ (items.foldl applyItem r).resultCode = r.resultCode
    ∧ (items.foldl applyItem r).resultDesc = r.resultDesc
    ∧ (items.foldl applyItem r).merchantRequestId = r.merchantRequestId
    ∧ (items.foldl applyItem r).checkoutRequestId = r.checkoutRequestId
    ∧ (items.foldl applyItem r).mpesaReceiptNumber.isSome =
      (r.mpesaReceiptNumber.isSome
        || items.any (fun i => i.name == "MpesaReceiptNumber"))
    ∧ (items.foldl applyItem r).transactionDate.isSome =
      (r.transactionDate.isSome || items.any (fun i => i.name == "TransactionDate"))
    ∧ (items.foldl applyItem r).phoneNumber.isSome =
      (r.phoneNumber.isSome || items.any (fun i => i.name == "PhoneNumber"))
    ∧ (items.foldl applyItem r).amount.isSome =
      (r.amount.isSome || items.any (fun i => i.name == "Amount")) := by
  induction items generalizing r with
  | nil => simp
  | cons it rest ih =>
    obtain ⟨s1, s2, s3, s4, s5, s6, s7, s8, s9⟩ := ih (applyItem r it)
    obtain ⟨a1, a2, a3, a4, a5⟩ := applyItem_fixed r it
    simp only [List.foldl_cons, List.any_cons]
    refine ⟨?_, ?_, ?_, ?_, ?_, ?_, ?_, ?_, ?_⟩
    · rw [s1, a1]
    · rw [s2, a2]
    · rw [s3, a3]
    · rw [s4, a4]
    · rw [s5, a5]
    · rw [s6, applyItem_receipt]
      cases hr : r.mpesaReceiptNumber.isSome <;> simp [Bool.or_assoc]
    · rw [s7, applyItem_date]
      cases hr : r.transactionDate.isSome <;> simp [Bool.or_assoc]
    · rw [s8, applyItem_phone]
      cases hr : r.phoneNumber.isSome <;> simp [Bool.or_assoc]
    · rw [s9, applyItem_amount]
      cases hr : r.amount.isSome <;> simp [Bool.or_assoc]

/-- C7: `parseStkCallback` yields a flat record with
`success = (ResultCode == 0)`, the result code, description and both
correlation identifiers copied through, and each optional field is
non-null exactly when `ResultCode = 0`, `CallbackMetadata` is present and
an item of the corresponding name occurs; otherwise it is null.  The
failed `ResultCode = 1032` callback without metadata parses to the fully
null record. -/
theorem parseStkCallback_c7 :
    (∀ b : StkCallbackBody,
      (parseStkCallback b).success = (b.resultCode == 0)
      ∧ (parseStkCallback b).resultCode = b.resultCode
      ∧ (parseStkCallback b).resultDesc = b.resultDesc
      ∧ (parseStkCallback b).merchantRequestId = b.merchantRequestID
      ∧ (parseStkCallback b).checkoutRequestId = b.checkoutRequestID
      ∧ (parseStkCallback b).mpesaReceiptNumber.isSome =
        ((b.resultCode == 0) && b.callbackMetadata.isSome
          && (b.callbackMetadata.getD []).any (fun i => i.name == "MpesaReceiptNumber"))
      ∧ (parseStkCallback b).transactionDate.isSome =
        ((b.resultCode == 0) && b.callbackMetadata.isSome
          && (b.callbackMetadata.getD []).any (fun i => i.name == "TransactionDate"))
      ∧ (parseStkCallback b).phoneNumber.isSome =
        ((b.resultCode == 0) && b.callbackMetadata.isSome
          && (b.callbackMetadata.getD []).any (fun i => i.name == "PhoneNumber"))
      ∧ (parseStkCallback b).amount.isSome =
        ((b.resultCode == 0) && b.callbackMetadata.isSome
          && (b.callbackMetadata.getD []).any (fun i => i.name == "Amount")))
    ∧ parseStkCallback
        ⟨"merchant_123", "checkout_123", 1032, "Request cancelled by user.", none⟩ =
      ⟨false, 1032, "Request cancelled by user.", "merchant_123", "checkout_123",
        none, none, none, none⟩ := by
  constructor
  · intro b
    by_cases hrc : b.resultCode = 0
    · cases hmeta : b.callbackMetadata with
      | none => simp [parseStkCallback, hrc, hmeta]
      | some items =>
        have hf := foldl_applyItem_fields items
          ⟨b.resultCode == 0, b.resultCode, b.resultDesc, b.merchantRequestID,
            b.checkoutRequestID, none, none, none, none⟩
        simp only [parseStkCallback, hrc, hmeta, if_pos]
        simpa [hrc, hmeta] using hf
    · simp [parseStkCallback, hrc]
  · decide

/-! ## C1 and C2: dispatcher retry discipline -/

theorem apiRequestLoop_retry_step (m t : Nat) (outcomes : Nat → AttemptOutcome)
    (f a : Nat) (lastErr : Option MpesaErr) (hlt : a < m)
    (hret : retryable (outcomes a)) :
    apiRequestLoop m t outcomes (f + 1) a lastErr =
      ⟨(apiRequestLoop m t outcomes f (a + 1) (some (attemptErr t (outcomes a)))).result,
        (apiRequestLoop m t outcomes f (a + 1)
          (some (attemptErr t (outcomes a)))).fetchCount + 1,
        (if 0 < a then [retryDelay a] else []) ++
          (apiRequestLoop m t outcomes f (a + 1)
            (some (attemptErr t (outcomes a)))).delays⟩ := by
  rw [apiRequestLoop]
  cases ho : outcomes a with
  | httpResp r =>
    rw [ho] at hret
    have hret' : 500 ≤ r.status ∨ r.status = 0 := hret
    have hok : ¬ respOk r.status = true := by
      simp only [respOk, decide_eq_true_eq]
      omega
    simp only []
    rw [if_neg hok]
    rcases hret' with h5 | h0
    · rw [if_pos ⟨h5, hlt⟩]
      simp [attemptErr, ho]
    · rw [if_neg (by omega), if_neg (by omega), if_pos hlt]
      simp [attemptErr, ho]
  | aborted =>
    simp only []
    rw [if_pos hlt]
    simp [attemptErr, ho]
  | localError msg =>
    simp only []
    rw [if_pos hlt]
    simp [attemptErr, ho]

theorem apiRequestLoop_terminal_http (m t : Nat) (outcomes : Nat → AttemptOutcome)
    (f a : Nat) (lastErr : Option MpesaErr) (r : ApiResponse)
    (ho : outcomes a = .httpResp r) (hok : ¬ respOk r.status = true)
    (hnc1 : ¬(500 ≤ r.status ∧ a < m))
    (hterm : (r.status ≠ 0 ∧ r.status < 500) ∨ ¬ a < m) :
    apiRequestLoop m t outcomes (f + 1) a lastErr =
      ⟨.error (httpFailErr r), 1, if 0 < a then [retryDelay a] else []⟩ := by
  rw [apiRequestLoop]
  simp only [ho]
  rw [if_neg hok, if_neg hnc1]
  rcases hterm with h | h
  · rw [if_pos h]
  · by_cases h2 : r.status ≠ 0 ∧ r.status < 500
    · rw [if_pos h2]
    · rw [if_neg h2, if_neg h]

theorem apiRequestLoop_terminal_abort (m t : Nat) (outcomes : Nat → AttemptOutcome)
    (f a : Nat) (lastErr : Option MpesaErr)
    (ho : outcomes a = .aborted) (hnm : ¬ a < m) :
    apiRequestLoop m t outcomes (f + 1) a lastErr =
      ⟨.error (timeoutErr t), 1, if 0 < a then [retryDelay a] else []⟩ := by
  rw [apiRequestLoop]
  simp only [ho]
  rw [if_neg hnm]

theorem apiRequestLoop_terminal_local (m t : Nat) (outcomes : Nat → AttemptOutcome)
    (f a : Nat) (lastErr : Option MpesaErr) (msg : String)
    (ho : outcomes a = .localError msg) (hnm : ¬ a < m) :
    apiRequestLoop m t outcomes (f + 1) a lastErr =
      ⟨.error (.plainError msg), 1, if 0 < a then [retryDelay a] else []⟩ := by
  rw [apiRequestLoop]
  simp only [ho]
  rw [if_neg hnm]

theorem apiRequestLoop_retryable (m t : Nat) (outcomes : Nat → AttemptOutcome)
    (hr : ∀ i, retryable (outcomes i)) :
    ∀ (fuel a : Nat) (lastErr : Option MpesaErr), a + fuel = m + 1 → 1 ≤ fuel →
      apiRequestLoop m t outcomes fuel a lastErr =
        ⟨.error (attemptErr t (outcomes m)), fuel, expectedDelays a fuel⟩ := by
  intro fuel
  induction fuel with
  | zero =>
    intro a lastErr _ h1
    omega
  | succ f ih =>
    intro a lastErr hsum _
    by_cases hlt : a < m
    · rw [apiRequestLoop_retry_step m t outcomes f a lastErr hlt (hr a)]
      rw [ih (a + 1) (some (attemptErr t (outcomes a))) (by omega) (by omega)]
      simp [expectedDelays]
    · have ha : a = m := by omega
      have hf0 : f = 0 := by omega
      subst ha
      subst hf0
      cases ho : outcomes a with
      | httpResp r =>
        have hret := hr a
        rw [ho] at hret
        have hret' : 500 ≤ r.status ∨ r.status = 0 := hret
        rw [apiRequestLoop_terminal_http a t outcomes 0 a lastErr r ho
          (by simp only [respOk, decide_eq_true_eq]; omega)
          (by omega) (Or.inr hlt)]
        simp [attemptErr, expectedDelays]
      | aborted =>
        rw [apiRequestLoop_terminal_abort a t outcomes 0 a lastErr ho hlt]
        simp [attemptErr, expectedDelays]
      | localError msg =>
        rw [apiRequestLoop_terminal_local a t outcomes 0 a lastErr msg ho hlt]
        simp [attemptErr, expectedDelays]

theorem apiRequestLoop_leading5xx (m t : Nat) (outcomes : Nat → AttemptOutcome) (k : Nat)
    (hk : k ≤ m) (hpre : ∀ i, i < k → retryable (outcomes i)) (r : ApiResponse)
    (hko : outcomes k = .httpResp r) (h4a : r.status ≠ 0) (h4b : r.status < 500)
    (h4ok : ¬ respOk r.status = true) :
    ∀ (fuel a : Nat) (lastErr : Option MpesaErr), a + fuel = m + 1 → a ≤ k →
      apiRequestLoop m t outcomes fuel a lastErr =
        ⟨.error (httpFailErr r), k + 1 - a, expectedDelays a (k + 1 - a)⟩ := by
  intro fuel
  induction fuel with
  | zero =>
    intro a lastErr hsum hak
    omega
  | succ f ih =>
    intro a lastErr hsum hak
    by_cases hek : a = k
    · subst hek
      rw [apiRequestLoop_terminal_http m t outcomes f a lastErr r hko h4ok
        (by omega) (Or.inl ⟨h4a, h4b⟩)]
      have h1 : a + 1 - a = 1 := by omega
      rw [h1]
      simp [expectedDelays]
    · have hlt : a < k := by omega
      rw [apiRequestLoop_retry_step m t outcomes f a lastErr (by omega) (hpre a hlt)]
      rw [ih (a + 1) (some (attemptErr t (outcomes a))) (by omega) (by omega)]
      have h1 : k + 1 - a = (k + 1 - (a + 1)) + 1 := by omega
      rw [h1]
      simp [expectedDelays]

theorem expectedDelays_pos (f : Nat) : ∀ a, 0 < a →
    expectedDelays a f = (List.range f).map (fun j => retryDelay (a + j)) := by
  induction f with
  | zero =>
    intro a _
    simp [expectedDelays]
  | succ g ih =>
    intro a ha
    rw [expectedDelays, if_pos ha, ih (a + 1) (by omega)]
    rw [List.range_succ_eq_map, List.map_cons, List.map_map]
    simp only [List.singleton_append]
    congr 1
    apply List.map_congr_left
    intro j _
    simp only [Function.comp_apply]
    congr 1
    omega

theorem expectedDelays_zero_start (f : Nat) :
    expectedDelays 0 (f + 1) = (List.range f).map (fun j => min (1000 * 2 ^ j) 10000) := by
  rw [expectedDelays]
  rw [if_neg (by omega)]
  rw [List.nil_append, expectedDelays_pos f 1 (by omega)]
  apply List.map_congr_left
  intro j _
  show retryDelay (1 + j) = min (1000 * 2 ^ j) 10000
  have hj : 1 + j - 1 = j := by omega
  rw [retryDelay, hj]

/-- C1: with a configured retry budget, a run in which every attempt
yields a 5xx performs exactly `maxRetries` retries after the first
attempt (so `maxRetries + 1` fetches), waits
`min(1000·2^(attempt−1), 10000)` ms before each retry, and surfaces the
last attempt's `MpesaApiError`; a 4xx response at any attempt (here:
after any number of 5xx attempts) fails immediately with that error and
triggers no further retry. -/
theorem apiRequest_c1 :
    (∀ (m t : Nat) (r : Nat → ApiResponse), (∀ i, 500 ≤ (r i).status) →
      apiRequest m t (fun i => .httpResp (r i)) =
        ⟨.error (httpFailErr (r m)), m + 1,
          (List.range m).map (fun j => min (1000 * 2 ^ j) 10000)⟩)
    ∧ (∀ (m t : Nat) (r : Nat → ApiResponse) (k : Nat), k ≤ m →
      (∀ i, i < k → 500 ≤ (r i).status) →
      400 ≤ (r k).status → (r k).status ≤ 499 →
      apiRequest m t (fun i => .httpResp (r i)) =
        ⟨.error (httpFailErr (r k)), k + 1,
          (List.range k).map (fun j => min (1000 * 2 ^ j) 10000)⟩) := by
  constructor
  · intro m t r h5
    unfold apiRequest
    rw [apiRequestLoop_retryable m t _
      (fun i => by simp only [retryable]; exact Or.inl (h5 i))
      (m + 1) 0 none (by omega) (by omega)]
    rw [expectedDelays_zero_start]
    simp [attemptErr]
  · intro m t r k hk h5 h4a h4b
    unfold apiRequest
    rw [apiRequestLoop_leading5xx m t _ k hk
      (fun i hi => by simp only [retryable]; exact Or.inl (h5 i hi))
      (r k) rfl (by omega) (by omega)
      (by simp only [respOk, decide_eq_true_eq]; omega)
      (m + 1) 0 none (by omega) (by omega)]
    have h1 : k + 1 - 0 = k + 1 := by omega
    rw [h1, expectedDelays_zero_start]

/-- Witness for C1: three 503 responses under `maxRetries = 2` (delays
1000 then 2000 ms), and an immediate 404 failure under the same budget. -/
theorem apiRequest_c1_witness :
    apiRequest 2 30000 (fun _ => .httpResp ⟨503, "Service Unavailable", ⟨none, none, none, ""⟩⟩) =
      ⟨.error (httpFailErr ⟨503, "Service Unavailable", ⟨none, none, none, ""⟩⟩), 3, [1000, 2000]⟩
    ∧ apiRequest 2 30000 (fun _ => .httpResp ⟨404, "Not Found", ⟨none, none, none, ""⟩⟩) =
      ⟨.error (httpFailErr ⟨404, "Not Found", ⟨none, none, none, ""⟩⟩), 1, []⟩ := by
  constructor
  · have h := apiRequest_c1.1 2 30000
      (fun _ => ⟨503, "Service Unavailable", ⟨none, none, none, ""⟩⟩)
      (fun _ => (by decide : (500 : Nat) ≤ 503))
    exact h.trans (by decide)
  · have h := apiRequest_c1.2 2 30000
      (fun _ => ⟨404, "Not Found", ⟨none, none, none, ""⟩⟩) 0 (by decide)
      (fun i hi => absurd hi (Nat.not_lt_zero i)) (by decide) (by decide)
    exact h.trans (by decide)

/-- C2 (counterexample to the claim as stated): with `maxRetries = 1`, a
request whose every attempt times out is fetched twice — the timeout is
retried once after a 1000 ms backoff — rather than surfacing the first
timeout immediately with no retry. -/
theorem apiRequest_c2_counterexample :
    apiRequest 1 30000 (fun _ => .aborted) =
      ⟨.error (timeoutErr 30000), 2, [1000]⟩
    ∧ (apiRequest 1 30000 (fun _ => .aborted)).fetchCount ≠ 1 := by
  exact ⟨by decide, by decide⟩

/-- C2 (amended): a local failure that produces no HTTP response — a
timeout/abort or any other local error — is retried exactly like a 5xx:
up to `maxRetries` retries with the capped exponential backoff, after
which the last error is surfaced; it is surfaced immediately only when
`maxRetries = 0` (the default). -/
theorem apiRequest_c2_amended :
    (∀ (m t : Nat), apiRequest m t (fun _ => .aborted) =
      ⟨.error (timeoutErr t), m + 1,
        (List.range m).map (fun j => min (1000 * 2 ^ j) 10000)⟩)
    ∧ (∀ (m t : Nat) (msgs : Nat → String),
      apiRequest m t (fun i => .localError (msgs i)) =
        ⟨.error (.plainError (msgs m)), m + 1,
          (List.range m).map (fun j => min (1000 * 2 ^ j) 10000)⟩)
    ∧ (∀ t : Nat, apiRequest 0 t (fun _ => .aborted) = ⟨.error (timeoutErr t), 1, []⟩) := by
  have h1 : ∀ (m t : Nat), apiRequest m t (fun _ => .aborted) =
      ⟨.error (timeoutErr t), m + 1,
        (List.range m).map (fun j => min (1000 * 2 ^ j) 10000)⟩ := by
    intro m t
    unfold apiRequest
    rw [apiRequestLoop_retryable m t _ (fun i => by simp [retryable])
      (m + 1) 0 none (by omega) (by omega)]
    rw [expectedDelays_zero_start]
    simp [attemptErr]
  refine ⟨h1, ?_, ?_⟩
  · intro m t msgs
    unfold apiRequest
    rw [apiRequestLoop_retryable m t _ (fun i => by simp [retryable])
      (m + 1) 0 none (by omega) (by omega)]
    rw [expectedDelays_zero_start]
    simp [attemptErr]
  · intro t
    simpa using h1 0 t

/-! ## C9: timestamp/date round-trip -/

theorem decCharsAux_congr : ∀ (f1 f2 n : Nat), n < f1 → n < f2 →
    decCharsAux f1 n = decCharsAux f2 n := by
  intro f1
  induction f1 with
  | zero =>
    intro f2 n h1 _
    omega
  | succ g ih =>
    intro f2 n h1 h2
    cases f2 with
    | zero => omega
    | succ k =>
      rw [decCharsAux, decCharsAux]
      by_cases hn : n < 10
      · rw [if_pos hn, if_pos hn]
      · rw [if_neg hn, if_neg hn]
        have hd : n / 10 < n := Nat.div_lt_self (by omega) (by omega)
        rw [ih k (n / 10) (by omega) (by omega)]

theorem decChars_eq (n : Nat) :
    decChars n = if n < 10 then [digitChar n]
      else decChars (n / 10) ++ [digitChar (n % 10)] := by
  rw [decChars, decCharsAux]
  by_cases hn : n < 10
  · rw [if_pos hn, if_pos hn]
  · rw [if_neg hn, if_neg hn, decChars]
    have hd : n / 10 < n := Nat.div_lt_self (by omega) (by omega)
    rw [decCharsAux_congr n (n / 10 + 1) (n / 10) (by omega) (by omega)]

theorem digitChar_toNat (n : Nat) (h : n ≤ 9) : (digitChar n).toNat = 48 + n := by
  interval_cases n <;> decide

theorem digitChar_of_isDig (c : Char) (h : isDig c = true) :
    digitChar (c.toNat - 48) = c := by
  simp only [isDig, decide_eq_true_eq] at h
  have e : 48 + (c.toNat - 48) = c.toNat := by omega
  rw [digitChar, e, Char.ofNat_toNat]

theorem digitsVal_append_single (l : List Char) (c : Char) :
    digitsVal (l ++ [c]) = 10 * digitsVal l + (c.toNat - 48) := by
  simp [digitsVal, List.foldl_append]

theorem digitsVal_decChars (n : Nat) : digitsVal (decChars n) = n := by
  induction n using Nat.strong_induction_on with
  | _ n ih =>
    rw [decChars_eq]
    by_cases hn : n < 10
    · rw [if_pos hn]
      simp only [digitsVal, List.foldl_cons, List.foldl_nil]
      rw [digitChar_toNat n (by omega)]
      omega
    · rw [if_neg hn, digitsVal_append_single]
      rw [ih (n / 10) (Nat.div_lt_self (by omega) (by omega))]
      rw [digitChar_toNat (n % 10) (by omega)]
      omega

theorem decChars_one (n : Nat) (h : n ≤ 9) : decChars n = [digitChar n] := by
  rw [decChars_eq, if_pos (by omega)]

theorem decChars_two (n : Nat) (h1 : 10 ≤ n) (h2 : n ≤ 99) :
    decChars n = [digitChar (n / 10), digitChar (n % 10)] := by
  rw [decChars_eq, if_neg (by omega), decChars_one (n / 10) (by omega)]
  rfl

theorem decChars_four (n : Nat) (h1 : 1000 ≤ n) (h2 : n ≤ 9999) :
    decChars n = [digitChar (n / 1000), digitChar (n / 100 % 10),
      digitChar (n / 10 % 10), digitChar (n % 10)] := by
  rw [decChars_eq, if_neg (by omega)]
  rw [decChars_eq, if_neg (by omega)]
  rw [decChars_two (n / 10 / 10) (by omega) (by omega)]
  have e1 : n / 10 / 10 / 10 = n / 1000 := by omega
  have e2 : n / 10 / 10 % 10 = n / 100 % 10 := by omega
  have e3 : n / 10 % 10 = n / 10 % 10 := rfl
  rw [e1, e2]
  simp

theorem decChars_digitsVal_four (a b c d : Char) (ha : isDig a = true)
    (hb : isDig b = true) (hc : isDig c = true) (hd : isDig d = true)
    (hv : 1000 ≤ digitsVal [a, b, c, d]) :
    decChars (digitsVal [a, b, c, d]) = [a, b, c, d] := by
  have hba : 48 ≤ a.toNat ∧ a.toNat ≤ 57 := by simpa [isDig] using ha
  have hbb : 48 ≤ b.toNat ∧ b.toNat ≤ 57 := by simpa [isDig] using hb
  have hbc : 48 ≤ c.toNat ∧ c.toNat ≤ 57 := by simpa [isDig] using hc
  have hbd : 48 ≤ d.toNat ∧ d.toNat ≤ 57 := by simpa [isDig] using hd
  have hval : digitsVal [a, b, c, d] = 1000 * (a.toNat - 48) + 100 * (b.toNat - 48)
      + 10 * (c.toNat - 48) + (d.toNat - 48) := by
    simp only [digitsVal, List.foldl_cons, List.foldl_nil]
    omega
  rw [decChars_four _ hv (by omega)]
  have e1 : digitsVal [a, b, c, d] / 1000 = a.toNat - 48 := by omega
  have e2 : digitsVal [a, b, c, d] / 100 % 10 = b.toNat - 48 := by omega
  have e3 : digitsVal [a, b, c, d] / 10 % 10 = c.toNat - 48 := by omega
  have e4 : digitsVal [a, b, c, d] % 10 = d.toNat - 48 := by omega
  rw [e1, e2, e3, e4, digitChar_of_isDig a ha, digitChar_of_isDig b hb,
    digitChar_of_isDig c hc, digitChar_of_isDig d hd]

theorem padStart2_decChars (a b : Char) (ha : isDig a = true)
    (hb : isDig b = true) :
    padStart2 (decChars (digitsVal [a, b])) = [a, b] := by
  have hba : 48 ≤ a.toNat ∧ a.toNat ≤ 57 := by simpa [isDig] using ha
  have hbb : 48 ≤ b.toNat ∧ b.toNat ≤ 57 := by simpa [isDig] using hb
  have hval : digitsVal [a, b] = 10 * (a.toNat - 48) + (b.toNat - 48) := by
    simp only [digitsVal, List.foldl_cons, List.foldl_nil]
    omega
  by_cases hzero : a.toNat - 48 = 0
  · have hsmall : digitsVal [a, b] ≤ 9 := by omega
    rw [decChars_one _ hsmall]
    have e : digitsVal [a, b] = b.toNat - 48 := by omega
    rw [e, digitChar_of_isDig b hb]
    have ha0 : a = '0' := by
      calc a = digitChar (a.toNat - 48) := (digitChar_of_isDig a ha).symm
        _ = digitChar 0 := by rw [hzero]
        _ = '0' := by decide
    rw [ha0]
    simp [padStart2, List.replicate]
  · have h10 : 10 ≤ digitsVal [a, b] := by omega
    have h99 : digitsVal [a, b] ≤ 99 := by omega
    rw [decChars_two _ h10 h99]
    have e1 : digitsVal [a, b] / 10 = a.toNat - 48 := by omega
    have e2 : digitsVal [a, b] % 10 = b.toNat - 48 := by omega
    rw [e1, e2, digitChar_of_isDig a ha, digitChar_of_isDig b hb]
    simp [padStart2]

theorem decChars_digitsVal_of_len4 (l : List Char) (hl : l.length = 4)
    (hd : ∀ c ∈ l, isDig c = true) (hv : 1000 ≤ digitsVal l) :
    decChars (digitsVal l) = l := by
  obtain ⟨a, b, c, d, rfl⟩ : ∃ a b c d, l = [a, b, c, d] := by
    rcases l with _ | ⟨a, _ | ⟨b, _ | ⟨c, _ | ⟨d, _ | ⟨e, rest⟩⟩⟩⟩⟩
    · simp at hl
    · simp at hl
    · simp at hl
    · simp at hl
    · exact ⟨a, b, c, d, rfl⟩
    · simp at hl
  exact decChars_digitsVal_four a b c d (hd a (by simp)) (hd b (by simp))
    (hd c (by simp)) (hd d (by simp)) hv

theorem padStart2_decChars_of_len2 (l : List Char) (hl : l.length = 2)
    (hd : ∀ c ∈ l, isDig c = true) :
    padStart2 (decChars (digitsVal l)) = l := by
  obtain ⟨a, b, rfl⟩ : ∃ a b, l = [a, b] := by
    rcases l with _ | ⟨a, _ | ⟨b, _ | ⟨c, rest⟩⟩⟩
    · simp at hl
    · simp at hl
    · exact ⟨a, b, rfl⟩
    · simp at hl
  exact padStart2_decChars a b (hd a (by simp)) (hd b (by simp))

theorem takeWhile_isDig_of_all (l : List Char) (h : ∀ c ∈ l, isDig c = true) :
    l.takeWhile isDig = l := by
  induction l with
  | nil => rfl
  | cons c t ih =>
    rw [List.takeWhile_cons, h c (by simp)]
    simp [ih (fun x hx => h x (by simp [hx]))]

theorem jsParseInt_all_dig (l : List Char) (h : ∀ c ∈ l, isDig c = true)
    (hne : l ≠ []) : jsParseInt l = some ((digitsVal l : Int)) := by
  unfold jsParseInt
  rw [takeWhile_isDig_of_all l h]
  cases l with
  | nil => exact absurd rfl hne
  | cons c t => rfl

theorem intChars_natCast (n : Nat) : intChars (n : Int) = decChars n := by
  rw [intChars, if_neg (by omega)]
  simp

theorem carryDay_id (fuel : Nat) (y m d : Int) (h1 : 1 ≤ d)
    (h2 : d ≤ daysInMonth y m) :
    carryDay (fuel + 1) y m d = (y, m, d) := by
  rw [carryDay, if_neg (by omega), if_neg (by omega)]

theorem newJsDate_id (y m0 d h mi s : Int) (hy : 100 ≤ y) (hm0 : 0 ≤ m0)
    (hm1 : m0 ≤ 11) (hd1 : 1 ≤ d) (hd2 : d ≤ daysInMonth y m0) (hh0 : 0 ≤ h)
    (hh1 : h ≤ 23) (hmi0 : 0 ≤ mi) (hmi1 : mi ≤ 59) (hs0 : 0 ≤ s) (hs1 : s ≤ 59) :
    newJsDate y m0 d h mi s = ⟨y, m0, d, h, mi, s⟩ := by
  unfold newJsDate
  rw [if_neg (by omega)]
  have es1 : s.ediv 60 = 0 := Int.ediv_eq_zero_of_lt hs0 (by omega)
  have es2 : s.emod 60 = s := Int.emod_eq_of_lt hs0 (by omega)
  have em1 : mi.ediv 60 = 0 := Int.ediv_eq_zero_of_lt hmi0 (by omega)
  have em2 : mi.emod 60 = mi := Int.emod_eq_of_lt hmi0 (by omega)
  have eh1 : h.ediv 24 = 0 := Int.ediv_eq_zero_of_lt hh0 (by omega)
  have eh2 : h.emod 24 = h := Int.emod_eq_of_lt hh0 (by omega)
  have emo1 : m0.ediv 12 = 0 := Int.ediv_eq_zero_of_lt hm0 (by omega)
  have emo2 : m0.emod 12 = m0 := Int.emod_eq_of_lt hm0 (by omega)
  simp only [es1, es2, add_zero, em1, em2, eh1, eh2, emo1, emo2]
  rw [show (1000 : Nat) = 999 + 1 from rfl, carryDay_id 999 y m0 d hd1 hd2]

/-- C9 (amended): for every 14-digit timestamp string encoding a valid
calendar date-time whose year field is at least 1000,
`generateTimestamp (parseSafaricomDate s) = s`.  (For years below 1000
the round-trip fails: the year is rendered without leading zeros — and
years 00–99 are further remapped to 1900–1999 by the `Date`
constructor — see the counterexample.) -/
theorem generateTimestamp_parseSafaricomDate_c9 (s : String)
    (hlen : s.toList.length = 14)
    (hdig : ∀ c ∈ s.toList, isDig c = true)
    (hy : 1000 ≤ digitsVal (s.toList.take 4))
    (hmo1 : 1 ≤ digitsVal ((s.toList.drop 4).take 2))
    (hmo2 : digitsVal ((s.toList.drop 4).take 2) ≤ 12)
    (hd1 : 1 ≤ digitsVal ((s.toList.drop 6).take 2))
    (hd2 : (digitsVal ((s.toList.drop 6).take 2) : Int) ≤
      daysInMonth (digitsVal (s.toList.take 4) : Int)
        ((digitsVal ((s.toList.drop 4).take 2) : Int) - 1))
    (hh : digitsVal ((s.toList.drop 8).take 2) ≤ 23)
    (hmi : digitsVal ((s.toList.drop 10).take 2) ≤ 59)
    (hse : digitsVal ((s.toList.drop 12).take 2) ≤ 59) :
    (parseSafaricomDate (JsVal.str s)).map generateTimestamp = some s := by
  have len1 : (s.toList.take 4).length = 4 := by
    rw [List.length_take]; omega
  have len2 : ((s.toList.drop 4).take 2).length = 2 := by
    rw [List.length_take, List.length_drop]; omega
  have len3 : ((s.toList.drop 6).take 2).length = 2 := by
    rw [List.length_take, List.length_drop]; omega
  have len4 : ((s.toList.drop 8).take 2).length = 2 := by
    rw [List.length_take, List.length_drop]; omega
  have len5 : ((s.toList.drop 10).take 2).length = 2 := by
    rw [List.length_take, List.length_drop]; omega
  have len6 : ((s.toList.drop 12).take 2).length = 2 := by
    rw [List.length_take, List.length_drop]; omega
  have dig1 : ∀ c ∈ s.toList.take 4, isDig c = true :=
    fun c hc => hdig c (List.take_subset _ _ hc)
  have dig2 : ∀ c ∈ (s.toList.drop 4).take 2, isDig c = true :=
    fun c hc => hdig c (List.drop_subset _ _ (List.take_subset _ _ hc))
  have dig3 : ∀ c ∈ (s.toList.drop 6).take 2, isDig c = true :=
    fun c hc => hdig c (List.drop_subset _ _ (List.take_subset _ _ hc))
  have dig4 : ∀ c ∈ (s.toList.drop 8).take 2, isDig c = true :=
    fun c hc => hdig c (List.drop_subset _ _ (List.take_subset _ _ hc))
  have dig5 : ∀ c ∈ (s.toList.drop 10).take 2, isDig c = true :=
    fun c hc => hdig c (List.drop_subset _ _ (List.take_subset _ _ hc))
  have dig6 : ∀ c ∈ (s.toList.drop 12).take 2, isDig c = true :=
    fun c hc => hdig c (List.drop_subset _ _ (List.take_subset _ _ hc))
  have ne1 : s.toList.take 4 ≠ [] := by
    intro hcon; rw [hcon] at len1; simp at len1
  have ne2 : (s.toList.drop 4).take 2 ≠ [] := by
    intro hcon; rw [hcon] at len2; simp at len2
  have ne3 : (s.toList.drop 6).take 2 ≠ [] := by
    intro hcon; rw [hcon] at len3; simp at len3
  have ne4 : (s.toList.drop 8).take 2 ≠ [] := by
    intro hcon; rw [hcon] at len4; simp at len4
  have ne5 : (s.toList.drop 10).take 2 ≠ [] := by
    intro hcon; rw [hcon] at len5; simp at len5
  have ne6 : (s.toList.drop 12).take 2 ≠ [] := by
    intro hcon; rw [hcon] at len6; simp at len6
  have p1 := jsParseInt_all_dig _ dig1 ne1
  have p2 := jsParseInt_all_dig _ dig2 ne2
  have p3 := jsParseInt_all_dig _ dig3 ne3
  have p4 := jsParseInt_all_dig _ dig4 ne4
  have p5 := jsParseInt_all_dig _ dig5 ne5
  have p6 := jsParseInt_all_dig _ dig6 ne6
  simp only [parseSafaricomDate, jsToString, p1, p2, p3, p4, p5, p6,
    Option.map_some']
  rw [newJsDate_id _ _ _ _ _ _ (by omega) (by omega) (by omega) (by omega) hd2
    (by omega) (by omega) (by omega) (by omega) (by omega) (by omega)]
  refine congrArg some ?_
  simp only [generateTimestamp]
  have em : ((digitsVal ((s.toList.drop 4).take 2) : Int) - 1) + 1 =
      (digitsVal ((s.toList.drop 4).take 2) : Int) := by ring
  rw [em]
  have pad_cast : ∀ n : Nat, pad2 (n : Int) = padStart2 (decChars n) := by
    intro n; rw [pad2, intChars_natCast]
  rw [intChars_natCast, pad_cast, pad_cast, pad_cast, pad_cast, pad_cast]
  rw [decChars_digitsVal_of_len4 _ len1 dig1 hy,
    padStart2_decChars_of_len2 _ len2 dig2,
    padStart2_decChars_of_len2 _ len3 dig3,
    padStart2_decChars_of_len2 _ len4 dig4,
    padStart2_decChars_of_len2 _ len5 dig5,
    padStart2_decChars_of_len2 _ len6 dig6]
  have c6all : (s.toList.drop 12).take 2 = s.toList.drop 12 := by
    apply List.take_of_length_le
    rw [List.length_drop]
    omega
  have e12 : (s.toList.drop 10).drop 2 = s.toList.drop 12 := by
    simp [List.drop_drop]
  have e10 : (s.toList.drop 8).drop 2 = s.toList.drop 10 := by
    simp [List.drop_drop]
  have e8 : (s.toList.drop 6).drop 2 = s.toList.drop 8 := by
    simp [List.drop_drop]
  have e6 : (s.toList.drop 4).drop 2 = s.toList.drop 6 := by
    simp [List.drop_drop]
  simp only [List.append_assoc]
  rw [c6all, ← e12, List.take_append_drop, ← e10, List.take_append_drop,
    ← e8, List.take_append_drop, ← e6, List.take_append_drop,
    List.take_append_drop]
  cases s
  rfl

/-- Witness for C9 (amended) at `"20260225143045"`. -/
theorem generateTimestamp_parseSafaricomDate_c9_witness :
    (parseSafaricomDate (JsVal.str "20260225143045")).map generateTimestamp =
      some "20260225143045" :=
  generateTimestamp_parseSafaricomDate_c9 "20260225143045" (by decide) (by decide)
    (by decide) (by decide) (by decide) (by decide) (by decide) (by decide)
    (by decide) (by decide)

/-- C9 (counterexample to the claim as stated): `"09990101000000"` is a
well-formed 14-digit string encoding the valid calendar date-time
0999-01-01 00:00:00, but the round-trip renders the year without its
leading zero and yields the 13-character `"9990101000000"`. -/
theorem parseSafaricomDate_c9_counterexample :
    "09990101000000".toList.length = 14
    ∧ "09990101000000".toList.all isDig = true
    ∧ digitsVal (("09990101000000".toList.drop 4).take 2) = 1
    ∧ digitsVal (("09990101000000".toList.drop 6).take 2) = 1
    ∧ (parseSafaricomDate (JsVal.str "09990101000000")).map generateTimestamp =
      some "9990101000000"
    ∧ ("9990101000000" : String) ≠ "09990101000000" := by
  refine ⟨by decide, by decide, by decide, by decide, by decide, by decide⟩
